import Mathlib

/-!
Shallow embedding of `src/example/real_nvp.ipynb` (Real NVP training notebook).

The notebook wires together: a stack of `K = 8` masked affine coupling flows with
alternating binary masks, a diagonal Gaussian base distribution, a two-mode target,
and a training loop of `max_iter = 20000` iterations with an annealed loss,
checkpointing scalar metrics every `show_iter = 500` iterations.

Machine floats are modelled by exact rationals; the framework's forward pass
(the per-iteration mean log-densities) is an abstract oracle `ℕ → ℚ`, since its
values depend on learned parameters.  Parameter state is tracked by a version
counter bumped by each optimizer step; the CUDA random generator is an abstract
state `ℕ` with `cudaSeedState` for `torch.cuda.manual_seed` and `rngAdvance` for
stream consumption.
-/

namespace RealNVP

/-! ### Model assembly (second cell): masks, nets, flow stack -/

/-- Number of coupling layers, `K = 8`. -/
def K : ℕ := 8

/-- The binary mask `b = torch.tensor([0, 1])`. -/
def b : List ℤ := [0, 1]

/-- Elementwise `1 - b`, the complementary mask used on odd layers. -/
def oneMinusB : List ℤ := b.map (fun v => 1 - v)

/-- A small fully connected network `nf.nets.FCN(sizes)`.  `netId` is an
allocation tag distinguishing freshly constructed networks. -/
structure FCN where
  sizes : List ℕ
  netId : ℕ
deriving DecidableEq, Inhabited

/-- A masked affine coupling layer `nf.flows.MaskedAffineFlow(mask, s, t)`. -/
structure MaskedAffineFlow where
  mask : List ℤ
  s : FCN
  t : FCN
deriving DecidableEq, Inhabited

/-- The flow-construction loop `for i in range(K)`: at index `i` two fresh
networks `s`, `t` with sizes `[2, 8, 2]` are allocated (consuming two fresh
allocation tags from `ctr`) and a layer with mask `b` (even `i`) or `1 - b`
(odd `i`) is appended. -/
def buildFlowsFrom (i ctr : ℕ) : ℕ → List MaskedAffineFlow
  | 0 => []
  | fuel + 1 =>
    let s : FCN := ⟨[2, 8, 2], ctr⟩
    let t : FCN := ⟨[2, 8, 2], ctr + 1⟩
    let f := if i % 2 = 0 then MaskedAffineFlow.mk b s t
             else MaskedAffineFlow.mk oneMinusB s t
    f :: buildFlowsFrom (i + 1) (ctr + 2) fuel

/-- The list `flows` built by the notebook's construction loop. -/
def flows : List MaskedAffineFlow := buildFlowsFrom 0 0 K

/-! ### Base distribution `q0` (modelled from the spec) -/

/-- Modelled from the spec: the library code for `nf.distributions.ConstDiagGaussian`
is not under `src/`; the spec describes the base distribution as "a simple
parametric density (e.g., diagonal Gaussian) supporting sampling and log-density
evaluation".  `loc` is the mean vector and `scale` the per-dimension standard
deviation. -/
structure ConstDiagGaussian where
  loc : List ℚ
  scale : List ℚ
deriving DecidableEq

/-- Dimension of the Gaussian. -/
def ConstDiagGaussian.dim (g : ConstDiagGaussian) : ℕ := g.loc.length

/-- Reparameterized sampling: a base noise vector `eps` is mapped to
`loc + scale * eps` componentwise. -/
def ConstDiagGaussian.sample (g : ConstDiagGaussian) (eps : List ℚ) : List ℚ :=
  (g.loc.zip (g.scale.zip eps)).map (fun p => p.1 + p.2.1 * p.2.2)

/-- Log-density of the diagonal Gaussian at `x`:
`-(dim/2)·log(2π) - Σ log σᵢ - Σ ((xᵢ-μᵢ)/σᵢ)²/2`. -/
noncomputable def ConstDiagGaussian.logProb (g : ConstDiagGaussian) (x : List ℚ) : ℝ :=
  -(g.dim : ℝ) / 2 * Real.log (2 * Real.pi)
    - (g.scale.map (fun v => Real.log (v : ℝ))).sum
    - ((x.zip (g.loc.zip g.scale)).map
        (fun p => ((((p.1 - p.2.1) / p.2.2 : ℚ) : ℝ)) ^ 2 / 2)).sum

/-- `np.zeros(n)` as a rational vector. -/
def np_zeros (n : ℕ) : List ℚ := List.replicate n 0

/-- `np.ones(n)` as a rational vector. -/
def np_ones (n : ℕ) : List ℚ := List.replicate n 1

/-- `q0 = nf.distributions.ConstDiagGaussian(np.zeros(2), np.ones(2))`. -/
def q0 : ConstDiagGaussian := ⟨np_zeros 2, np_ones 2⟩

/-! ### Training hyperparameters (fourth cell) -/

def max_iter : ℕ := 20000
def batch_size : ℕ := 128
def num_samples : ℕ := 128
def anneal_iter : ℕ := 10000
def annealing : Bool := true
def show_iter : ℕ := 500
def grid_size : ℕ := 200

/-! ### Loss -/

/-- `np.min` over a nonempty list (the notebook calls it on a two-element list). -/
def np_min (l : List ℚ) : ℚ :=
  match l with
  | [] => 0
  | x :: xs => xs.foldl min x

/-- The anneal weight `np.min([1., 0.01 + it / anneal_iter])` applied to the
target term `mean(log_p)`. -/
def annealWeight (it : ℕ) : ℚ :=
  np_min [1, 1 / 100 + (it : ℚ) / (anneal_iter : ℚ)]

/-- The per-iteration loss: with annealing,
`mean_log_q - np.min([1., 0.01 + it/anneal_iter]) * mean_log_p`; otherwise
`mean_log_q - mean_log_p`. -/
def lossVal (an : Bool) (it : ℕ) (mean_log_q mean_log_p : ℚ) : ℚ :=
  if an then mean_log_q - annealWeight it * mean_log_p
  else mean_log_q - mean_log_p

/-! ### Random generator model -/

/-- The state `torch.cuda.manual_seed(seed)` resets the CUDA generator to:
a function of the seed alone, independent of the prior generator state. -/
def cudaSeedState (seed : ℕ) : ℕ := seed

/-- Drawing `n` samples advances the generator stream. -/
def rngAdvance (st n : ℕ) : ℕ := st + n

/-- Initial generator state at notebook start. -/
def rng0 : ℕ := 0

/-! ### Events and traces

Each notebook statement that delegates to the framework is recorded as an
event, so ordering properties of the script can be stated on traces. -/

/-- Delegated framework operations performed by the script. -/
inductive Event where
  | zeroGrad : Event
  | forward : ℕ → Event
  | computeLoss : Event
  | backward : Event
  | optStep : Event
  | seedCuda : ℕ → Event
  | showPlot : Event
  | appendHist : Event
deriving DecidableEq, Inhabited

/-- The five framework calls of the unconditional part of the loop body, in
source order: `optimizer.zero_grad()`, the forward pass
`nfm(x, num_samples)`, the loss computation, `loss.backward()`,
`optimizer.step()`. -/
def trainEvents : List Event :=
  [Event.zeroGrad, Event.forward num_samples, Event.computeLoss,
   Event.backward, Event.optStep]

/-- The checkpoint tail guarded by `(it + 1) % show_iter == 0`:
`torch.cuda.manual_seed(0)`, the 512-sample draw `nfm(torch.zeros(512), 512)`,
the plot, and the three `np.append` history updates. -/
def checkpointEvents : List Event :=
  [Event.seedCuda 0, Event.forward 512, Event.showPlot, Event.appendHist]

/-- Events performed by loop iteration `it`. -/
def iterEvents (it : ℕ) : List Event :=
  trainEvents ++ (if (it + 1) % show_iter = 0 then checkpointEvents else [])

/-- The full training-loop trace, `for it in tqdm(range(max_iter))`. -/
def loopTrace : List Event := (List.range max_iter).flatMap iterEvents

/-- Framework calls of the cells before the loop: the prior-density plot,
the initial 512-sample draw from the untrained model, and its plot. -/
def preTrainEvents : List Event :=
  [Event.showPlot, Event.forward 512, Event.showPlot]

/-- Framework calls after the loop: the metric-history plot at the end of the
training cell, and the final posterior plot cell.  The final cell's sampling
line `z, _, _ = nfm(torch.zeros(512).to(device), num_samples=512)` is
commented out in the source, so no draw occurs after the loop. -/
def postLoopEvents : List Event := [Event.showPlot, Event.showPlot]

/-- The whole script's trace of delegated framework calls. -/
def scriptTrace : List Event := preTrainEvents ++ loopTrace ++ postLoopEvents

/-- Recognizer for sampling (forward-pass) events. -/
def isForwardEvent : Event → Bool
  | Event.forward _ => true
  | _ => false

/-! ### Training state -/

/-- Where a sample batch held in the notebook variable `z` was drawn. -/
inductive DrawPoint where
  | preTraining : DrawPoint
  | checkpoint : ℕ → DrawPoint
deriving DecidableEq

/-- A record of a draw through the flow: the parameter version used, the
program point, the generator state at the start of the draw, and the number
of samples. -/
structure Draw where
  paramsVersion : ℕ
  point : DrawPoint
  rngAtDraw : ℕ
  numSamples : ℕ
deriving DecidableEq

/-- The notebook's mutable state relevant to the training cell.  `paramsVersion`
counts optimizer steps applied to the model parameters; `z` is the variable
holding the most recent checkpoint (or pre-training) sample batch. -/
structure TrainState where
  paramsVersion : ℕ
  loss_hist : List ℚ
  log_q_hist : List ℚ
  log_p_hist : List ℚ
  lastLoss : ℚ
  b : List ℤ
  x : List ℚ
  priorParams : ℚ × ℚ
  q0_loc : List ℚ
  q0_scale : List ℚ
  z : Option Draw
  rng : ℕ
deriving DecidableEq

/-- State at loop entry: empty metric histories, `x = torch.zeros(batch_size)`,
the mask and distribution constants from the assembly cell, and `z` holding the
pre-training draw (the generator having advanced past it). -/
def initState : TrainState where
  paramsVersion := 0
  loss_hist := []
  log_q_hist := []
  log_p_hist := []
  lastLoss := 0
  b := RealNVP.b
  x := List.replicate batch_size 0
  priorParams := (2, 1 / 10)
  q0_loc := q0.loc
  q0_scale := q0.scale
  z := some ⟨0, DrawPoint.preTraining, rng0, 512⟩
  rng := rngAdvance rng0 512

/-- One iteration of the training loop at index `it`.  `mlq`/`mlp` are the
oracles giving `mean(log_q)` and `mean(log_p)` of the forward pass at each
iteration.  The body: zero gradients, forward pass (advancing the generator by
`num_samples`), loss, backward, optimizer step (bumping the parameter
version); then, when `(it + 1) % show_iter == 0`, reseed the CUDA generator
with 0, draw 512 samples into `z`, plot, and append the three metrics. -/
def stepIter (mlq mlp : ℕ → ℚ) (it : ℕ) (s : TrainState) : TrainState × List Event :=
  let mean_log_q := mlq it
  let mean_log_p := mlp it
  let l := lossVal annealing it mean_log_q mean_log_p
  let s1 : TrainState :=
    { s with rng := rngAdvance s.rng num_samples
             lastLoss := l
             paramsVersion := s.paramsVersion + 1 }
  if (it + 1) % show_iter = 0 then
    let rngSeeded := cudaSeedState 0
    let d : Draw := ⟨s1.paramsVersion, DrawPoint.checkpoint it, rngSeeded, 512⟩
    let s2 : TrainState :=
      { s1 with rng := rngAdvance rngSeeded 512
                z := some d
                loss_hist := s1.loss_hist ++ [l]
                log_q_hist := s1.log_q_hist ++ [mean_log_q]
                log_p_hist := s1.log_p_hist ++ [mean_log_p] }
    (s2, iterEvents it)
  else
    (s1, iterEvents it)

/-- State after the first `n` iterations of the training loop. -/
def runLoop (mlq mlp : ℕ → ℚ) : ℕ → TrainState
  | 0 => initState
  | n + 1 => (stepIter mlq mlp n (runLoop mlq mlp n)).1

/-- The sample batch plotted by the final cell: the commented-out resampling
line makes it whatever `z` holds when the loop ends. -/
def finalPlotData (mlq mlp : ℕ → ℚ) : Option Draw := (runLoop mlq mlp max_iter).z

/-! ### Error model

The script defines no `try`/`except`: every delegated call either succeeds or
aborts the run.  `runCalls` executes a call list through a fallible oracle,
returning the indices of the calls actually invoked together with the
outcome. -/

/-- Execute the calls of `es` in order through `oracle` (indexed from `n`),
stopping at the first failure.  Returns the list of invoked call indices and
the final outcome. -/
def runCalls {ε : Type} (oracle : ℕ → Event → Except ε Unit) :
    ℕ → List Event → List ℕ × Except ε Unit
  | _, [] => ([], Except.ok ())
  | n, e :: es =>
    match oracle n e with
    | Except.error err => ([n], Except.error err)
    | Except.ok _ =>
      let r := runCalls oracle (n + 1) es
      (n :: r.1, r.2)

/-! ### Helper lemmas -/

lemma stepIter_paramsVersion (mlq mlp : ℕ → ℚ) (it : ℕ) (s : TrainState) :
    (stepIter mlq mlp it s).1.paramsVersion = s.paramsVersion + 1 := by
  unfold stepIter
  split <;> rfl

lemma stepIter_frame (mlq mlp : ℕ → ℚ) (it : ℕ) (s : TrainState) :
    (stepIter mlq mlp it s).1.b = s.b
    ∧ (stepIter mlq mlp it s).1.x = s.x
    ∧ (stepIter mlq mlp it s).1.priorParams = s.priorParams
    ∧ (stepIter mlq mlp it s).1.q0_loc = s.q0_loc
    ∧ (stepIter mlq mlp it s).1.q0_scale = s.q0_scale := by
  unfold stepIter
  split <;> exact ⟨rfl, rfl, rfl, rfl, rfl⟩

lemma stepIter_loss_hist (mlq mlp : ℕ → ℚ) (it : ℕ) (s : TrainState) :
    (stepIter mlq mlp it s).1.loss_hist.length
      = s.loss_hist.length + (if (it + 1) % show_iter = 0 then 1 else 0) := by
  unfold stepIter
  split <;> simp_all

lemma stepIter_log_q_hist (mlq mlp : ℕ → ℚ) (it : ℕ) (s : TrainState) :
    (stepIter mlq mlp it s).1.log_q_hist.length
      = s.log_q_hist.length + (if (it + 1) % show_iter = 0 then 1 else 0) := by
  unfold stepIter
  split <;> simp_all

lemma stepIter_log_p_hist (mlq mlp : ℕ → ℚ) (it : ℕ) (s : TrainState) :
    (stepIter mlq mlp it s).1.log_p_hist.length
      = s.log_p_hist.length + (if (it + 1) % show_iter = 0 then 1 else 0) := by
  unfold stepIter
  split <;> simp_all

lemma runLoop_paramsVersion (mlq mlp : ℕ → ℚ) (n : ℕ) :
    (runLoop mlq mlp n).paramsVersion = n := by
  induction n with
  | zero => rfl
  | succ n ih =>
    show (stepIter mlq mlp n (runLoop mlq mlp n)).1.paramsVersion = n + 1
    rw [stepIter_paramsVersion, ih]

lemma runLoop_loss_hist (mlq mlp : ℕ → ℚ) (n : ℕ) :
    (runLoop mlq mlp n).loss_hist.length = n / show_iter := by
  induction n with
  | zero => simp [runLoop, initState]
  | succ n ih =>
    show (stepIter mlq mlp n (runLoop mlq mlp n)).1.loss_hist.length = (n + 1) / show_iter
    rw [stepIter_loss_hist, ih, Nat.succ_div]
    congr 1
    simp [Nat.dvd_iff_mod_eq_zero]

lemma runLoop_log_q_hist (mlq mlp : ℕ → ℚ) (n : ℕ) :
    (runLoop mlq mlp n).log_q_hist.length = n / show_iter := by
  induction n with
  | zero => simp [runLoop, initState]
  | succ n ih =>
    show (stepIter mlq mlp n (runLoop mlq mlp n)).1.log_q_hist.length = (n + 1) / show_iter
    rw [stepIter_log_q_hist, ih, Nat.succ_div]
    congr 1
    simp [Nat.dvd_iff_mod_eq_zero]

lemma runLoop_log_p_hist (mlq mlp : ℕ → ℚ) (n : ℕ) :
    (runLoop mlq mlp n).log_p_hist.length = n / show_iter := by
  induction n with
  | zero => simp [runLoop, initState]
  | succ n ih =>
    show (stepIter mlq mlp n (runLoop mlq mlp n)).1.log_p_hist.length = (n + 1) / show_iter
    rw [stepIter_log_p_hist, ih, Nat.succ_div]
    congr 1
    simp [Nat.dvd_iff_mod_eq_zero]

lemma iterEvents_count_optStep (it : ℕ) :
    (iterEvents it).count Event.optStep = 1 := by
  unfold iterEvents
  split <;> decide

lemma flatMap_count_optStep (l : List ℕ) :
    (l.flatMap iterEvents).count Event.optStep = l.length := by
  induction l with
  | nil => rfl
  | cons a l ih =>
    simp [List.count_append, iterEvents_count_optStep, ih]
    omega

lemma loopTrace_count_optStep : loopTrace.count Event.optStep = max_iter := by
  rw [loopTrace, flatMap_count_optStep, List.length_range]

lemma range_map_shift (n k : ℕ) :
    (List.range (k + 1)).map (fun j => n + j)
      = n :: (List.range k).map (fun j => (n + 1) + j) := by
  rw [List.range_succ_eq_map]
  simp only [List.map_cons, List.map_map, Nat.add_zero]
  congr 1
  apply List.map_congr_left
  intro j _
  simp [Function.comp]
  omega

lemma runCalls_first_error {ε : Type} (oracle : ℕ → Event → Except ε Unit)
    (es : List Event) :
    ∀ (n i : ℕ) (err : ε),
      (∀ j, j < i → oracle (n + j) (es.getD j Event.showPlot) = Except.ok ()) →
      oracle (n + i) (es.getD i Event.showPlot) = Except.error err →
      i < es.length →
      runCalls oracle n es = ((List.range (i + 1)).map (fun j => n + j), Except.error err) := by
  induction es with
  | nil =>
    intro n i err _ _ hlen
    exact absurd hlen (by simp)
  | cons e es ih =>
    intro n i err hok herr hlen
    cases i with
    | zero =>
      simp only [Nat.add_zero, List.getD_cons_zero] at herr
      rw [runCalls, herr]
      simp [List.range_succ]
    | succ k =>
      have h0 : oracle n e = Except.ok () := by
        have h := hok 0 (Nat.succ_pos k)
        simpa using h
      have hok' : ∀ j, j < k → oracle (n + 1 + j) (es.getD j Event.showPlot) = Except.ok () := by
        intro j hj
        have h := hok (j + 1) (Nat.succ_lt_succ hj)
        have harith : n + (j + 1) = n + 1 + j := by omega
        rw [harith] at h
        simpa using h
      have herr' : oracle (n + 1 + k) (es.getD k Event.showPlot) = Except.error err := by
        have harith : n + (k + 1) = n + 1 + k := by omega
        rw [harith] at herr
        simpa using herr
      have hlen' : k < es.length := Nat.lt_of_succ_lt_succ (by simpa using hlen)
      rw [runCalls, h0]
      dsimp only
      rw [ih (n + 1) k err hok' herr' hlen']
      dsimp only
      rw [range_map_shift n (k + 1)]

lemma scriptTrace_length_pos : 0 < scriptTrace.length := by
  rw [scriptTrace, List.length_append, List.length_append]
  have h : preTrainEvents.length = 3 := rfl
  omega

lemma annealWeight_eq_min (it : ℕ) :
    annealWeight it = min 1 (1 / 100 + (it : ℚ) / 10000) := by
  have h : ((anneal_iter : ℕ) : ℚ) = 10000 := by norm_num [anneal_iter]
  simp [annealWeight, np_min, h, min_comm]

lemma annealWeight_mono (i j : ℕ) (h : i ≤ j) :
    annealWeight i ≤ annealWeight j := by
  rw [annealWeight_eq_min, annealWeight_eq_min]
  have hc : (i : ℚ) ≤ (j : ℚ) := by exact_mod_cast h
  apply min_le_min le_rfl
  have : (i : ℚ) / 10000 ≤ (j : ℚ) / 10000 := by linarith
  linarith

lemma annealWeight_le_one (it : ℕ) : annealWeight it ≤ 1 := by
  rw [annealWeight_eq_min]
  exact min_le_left _ _

lemma annealWeight_saturates (it : ℕ) (h : (9900 : ℚ) ≤ (it : ℚ)) :
    annealWeight it = 1 := by
  rw [annealWeight_eq_min]
  apply min_eq_left
  have : (9900 : ℚ) / 10000 ≤ (it : ℚ) / 10000 := by linarith
  have h2 : (9900 : ℚ) / 10000 = 99 / 100 := by norm_num
  linarith

/-! ### Claim theorems -/

/-- C1: the loss recorded by each training iteration is the anneal-scheduled
combination of the two loss terms, with the weight a function of the iteration
count only: with annealing enabled (as in the notebook, where `annealing = True`)
the loss equals `mean(log_q) - min(1, 0.01 + it/anneal_iter) * mean(log_p)` with
`anneal_iter = 10000`, and with annealing disabled it equals
`mean(log_q) - mean(log_p)`. -/
theorem C1 : ∀ (mlq mlp : ℕ → ℚ) (it : ℕ) (s : TrainState) (mq mp : ℚ),
    (stepIter mlq mlp it s).1.lastLoss
      = mlq it - min 1 (1 / 100 + (it : ℚ) / 10000) * mlp it
    ∧ lossVal true it mq mp = mq - min 1 (1 / 100 + (it : ℚ) / 10000) * mp
    ∧ lossVal false it mq mp = mq - mp := by
  intro mlq mlp it s mq mp
  have hloss : ∀ a c : ℚ, lossVal true it a c = a - min 1 (1 / 100 + (it : ℚ) / 10000) * c := by
    intro a c
    rw [lossVal, if_pos rfl, annealWeight_eq_min]
  refine ⟨?_, hloss mq mp, rfl⟩
  have hstep : (stepIter mlq mlp it s).1.lastLoss = lossVal annealing it (mlq it) (mlp it) := by
    unfold stepIter
    split <;> rfl
  rw [hstep, annealing, hloss]

/-- C2: the assembly loop builds exactly `K = 8` coupling layers; layer `i`
carries mask `b = [0, 1]` for even `i` and `1 - b = [1, 0]` for odd `i`, and
every layer holds two freshly constructed (pairwise distinct) feed-forward
networks, each with layer sizes `[2, 8, 2]`. -/
theorem C2 :
    flows.length = K
    ∧ K = 8
    ∧ (∀ i, i < 8 →
        (flows.getD i default).mask = (if i % 2 = 0 then b else oneMinusB)
        ∧ (flows.getD i default).s.sizes = [2, 8, 2]
        ∧ (flows.getD i default).t.sizes = [2, 8, 2])
    ∧ b = [0, 1]
    ∧ oneMinusB = [1, 0]
    ∧ (flows.flatMap (fun f => [f.s.netId, f.t.netId])).Nodup := by
  refine ⟨by decide, rfl, ?_, rfl, by decide, by decide⟩
  decide

/-- C2 witness: the conjunct with a hypothesis, instantiated at `i = 2` and
`i = 3`. -/
theorem C2_witness :
    ((flows.getD 2 default).mask = (if 2 % 2 = 0 then b else oneMinusB)
      ∧ (flows.getD 2 default).s.sizes = [2, 8, 2]
      ∧ (flows.getD 2 default).t.sizes = [2, 8, 2])
    ∧ ((flows.getD 3 default).mask = (if 3 % 2 = 0 then b else oneMinusB)
      ∧ (flows.getD 3 default).s.sizes = [2, 8, 2]
      ∧ (flows.getD 3 default).t.sizes = [2, 8, 2]) :=
  ⟨C2.2.2.1 2 (by decide), C2.2.2.1 3 (by decide)⟩

/-- C3: the anneal weight `min(1, 0.01 + it/anneal_iter)` is monotonically
non-decreasing in the iteration count, never exceeds 1, equals 1 for every
iteration `it ≥ 0.99 * anneal_iter` with `anneal_iter = 10000`, and hence is
saturated at its maximum 1 from the midpoint `max_iter / 2 = 10000` of the
`max_iter = 20000` training iterations onward. -/
theorem C3 :
    (∀ i j : ℕ, i ≤ j → annealWeight i ≤ annealWeight j)
    ∧ (∀ it : ℕ, annealWeight it ≤ 1)
    ∧ (∀ it : ℕ, (99 : ℚ) / 100 * (anneal_iter : ℚ) ≤ (it : ℚ) → annealWeight it = 1)
    ∧ (∀ it : ℕ, max_iter / 2 ≤ it → annealWeight it = 1)
    ∧ anneal_iter = 10000
    ∧ max_iter = 20000 := by
  have hsat : ∀ it : ℕ, (99 : ℚ) / 100 * (anneal_iter : ℚ) ≤ (it : ℚ) → annealWeight it = 1 := by
    intro it h
    apply annealWeight_saturates
    have ha : ((anneal_iter : ℕ) : ℚ) = 10000 := by norm_num [anneal_iter]
    rw [ha] at h
    linarith
  refine ⟨annealWeight_mono, annealWeight_le_one, hsat, ?_, rfl, rfl⟩
  intro it h
  apply annealWeight_saturates
  have h10000 : (10000 : ℕ) ≤ it := by
    have : max_iter / 2 = 10000 := by norm_num [max_iter]
    omega
  have : (10000 : ℚ) ≤ (it : ℚ) := by exact_mod_cast h10000
  linarith

/-- C3 witness: the monotonicity and saturation conjuncts instantiated at
concrete iterations. -/
theorem C3_witness :
    annealWeight 100 ≤ annealWeight 200
    ∧ annealWeight 12345 = 1
    ∧ annealWeight 10500 = 1 :=
  ⟨C3.1 100 200 (by norm_num),
   C3.2.2.1 12345 (by norm_num [anneal_iter]),
   C3.2.2.2.1 10500 (by norm_num [max_iter])⟩

lemma runLoop_succ (mlq mlp : ℕ → ℚ) (n : ℕ) :
    runLoop mlq mlp (n + 1) = (stepIter mlq mlp n (runLoop mlq mlp n)).1 := rfl

lemma stepIter_z_checkpoint (mlq mlp : ℕ → ℚ) (it : ℕ) (s : TrainState)
    (h : (it + 1) % show_iter = 0) :
    (stepIter mlq mlp it s).1.z
      = some ⟨s.paramsVersion + 1, DrawPoint.checkpoint it, cudaSeedState 0, 512⟩ := by
  unfold stepIter
  rw [if_pos h]

/-- C4: the training loop runs for exactly `max_iter = 20000` iterations (its
trace contains exactly 20000 optimizer steps), and every iteration's event
sequence begins, in order, with: zeroing gradients, a forward pass drawing
`num_samples = 128` samples, the loss computation, backpropagation, and one
optimizer step. -/
theorem C4 :
    loopTrace.count Event.optStep = max_iter
    ∧ max_iter = 20000
    ∧ (∀ it, it < max_iter →
        (iterEvents it).take 5
          = [Event.zeroGrad, Event.forward num_samples, Event.computeLoss,
             Event.backward, Event.optStep])
    ∧ num_samples = 128 := by
  refine ⟨loopTrace_count_optStep, rfl, ?_, rfl⟩
  intro it _
  unfold iterEvents
  split <;> decide

/-- C4 witness: the ordered prefix of iteration 7's events. -/
theorem C4_witness :
    (iterEvents 7).take 5
      = [Event.zeroGrad, Event.forward num_samples, Event.computeLoss,
         Event.backward, Event.optStep] :=
  C4.2.2.1 7 (by decide)

/-- C5: each iteration appends one entry to each of the three metric histories
precisely when `(it + 1)` is a multiple of `show_iter = 500`; hence the three
histories have equal length `n / 500` after every iteration count `n`, and
exactly `max_iter / show_iter = 40` entries when the loop ends. -/
theorem C5 : ∀ (mlq mlp : ℕ → ℚ) (it n : ℕ) (s : TrainState),
    ((stepIter mlq mlp it s).1.loss_hist.length
        = s.loss_hist.length + (if (it + 1) % show_iter = 0 then 1 else 0))
    ∧ ((stepIter mlq mlp it s).1.log_q_hist.length
        = s.log_q_hist.length + (if (it + 1) % show_iter = 0 then 1 else 0))
    ∧ ((stepIter mlq mlp it s).1.log_p_hist.length
        = s.log_p_hist.length + (if (it + 1) % show_iter = 0 then 1 else 0))
    ∧ (runLoop mlq mlp n).loss_hist.length = n / show_iter
    ∧ (runLoop mlq mlp n).log_q_hist.length = n / show_iter
    ∧ (runLoop mlq mlp n).log_p_hist.length = n / show_iter
    ∧ (runLoop mlq mlp max_iter).loss_hist.length = 40
    ∧ max_iter / show_iter = 40 := by
  intro mlq mlp it n s
  refine ⟨stepIter_loss_hist mlq mlp it s, stepIter_log_q_hist mlq mlp it s,
    stepIter_log_p_hist mlq mlp it s, runLoop_loss_hist mlq mlp n,
    runLoop_log_q_hist mlq mlp n, runLoop_log_p_hist mlq mlp n, ?_, by decide⟩
  rw [runLoop_loss_hist]
  decide

/-- C6 counterexample: the claim says the script resamples from the model after
the training loop; in the source the final cell's sampling line is commented
out, so the post-loop trace contains no forward-pass (sampling) call. -/
theorem C6_counterexample : postLoopEvents.any isForwardEvent = false := by decide

/-- C6 (amended): after the loop, no new samples are drawn; the final cell
plots the batch held in `z`, which was drawn at the last in-loop checkpoint
(iteration `max_iter - 1 = 19999`), after the final optimizer step, so it does
come from the fully trained parameters (version `max_iter = 20000`). -/
theorem C6_amended : ∀ (mlq mlp : ℕ → ℚ),
    finalPlotData mlq mlp
      = some ⟨max_iter, DrawPoint.checkpoint (max_iter - 1), cudaSeedState 0, 512⟩
    ∧ (runLoop mlq mlp max_iter).paramsVersion = max_iter
    ∧ postLoopEvents.any isForwardEvent = false := by
  intro mlq mlp
  refine ⟨?_, runLoop_paramsVersion mlq mlp max_iter, by decide⟩
  unfold finalPlotData
  have h : max_iter = 19999 + 1 := by norm_num [max_iter]
  rw [h, runLoop_succ,
    stepIter_z_checkpoint mlq mlp 19999 (runLoop mlq mlp 19999) (by decide),
    runLoop_paramsVersion]

/-- C7 counterexample: the claim says only the network parameters and the
metric histories are mutated by the loop; but at the first checkpoint
iteration (`it = 499`) the sample variable `z` is reassigned as well. -/
theorem C7_counterexample :
    ¬ ((stepIter (fun _ => 0) (fun _ => 0) 499 initState).1.z = initState.z) := by
  decide

/-- C7 (amended): each loop iteration mutates the model parameters (one
optimizer step), and possibly the metric histories, the checkpoint sample
variable `z`, the stored loss, and the generator state; the mask tensor `b`,
the conditioning input `x`, the target-prior parameters, and the base
distribution's mean and standard-deviation constants are unchanged by every
iteration. -/
theorem C7_amended : ∀ (mlq mlp : ℕ → ℚ) (it : ℕ) (s : TrainState),
    (stepIter mlq mlp it s).1.paramsVersion = s.paramsVersion + 1
    ∧ (stepIter mlq mlp it s).1.b = s.b
    ∧ (stepIter mlq mlp it s).1.x = s.x
    ∧ (stepIter mlq mlp it s).1.priorParams = s.priorParams
    ∧ (stepIter mlq mlp it s).1.q0_loc = s.q0_loc
    ∧ (stepIter mlq mlp it s).1.q0_scale = s.q0_scale :=
  fun mlq mlp it s => ⟨stepIter_paramsVersion mlq mlp it s, stepIter_frame mlq mlp it s⟩

/-- C8: the script installs no error handler: executing its delegated-call
trace against any fallible framework oracle, the first failure propagates out
as the final outcome, and the invoked calls are exactly those up to and
including the failing one — each attempted once, with no retry and no
recovery. -/
theorem C8 : ∀ {ε : Type} (oracle : ℕ → Event → Except ε Unit) (i : ℕ) (err : ε),
    (∀ j, j < i → oracle j (scriptTrace.getD j Event.showPlot) = Except.ok ()) →
    oracle i (scriptTrace.getD i Event.showPlot) = Except.error err →
    i < scriptTrace.length →
    runCalls oracle 0 scriptTrace = (List.range (i + 1), Except.error err) := by
  intro ε oracle i err hok herr hlen
  have h := runCalls_first_error oracle scriptTrace 0 i err
    (by simpa using hok) (by simpa using herr) hlen
  simpa using h

/-- C8 witness: an oracle failing on the very first call aborts the run with
that error after exactly one invocation. -/
theorem C8_witness :
    runCalls (fun _ _ => Except.error (3 : ℕ)) 0 scriptTrace = ([0], Except.error 3) := by
  have h := C8 (fun _ _ => Except.error (3 : ℕ)) 0 3
    (fun j hj => absurd hj (Nat.not_lt_zero j)) rfl scriptTrace_length_pos
  have hr : List.range 1 = [0] := rfl
  rw [hr] at h
  exact h

/-- C9: the base distribution `q0` is a 2-dimensional diagonal Gaussian with
zero mean and unit standard deviation in every dimension; its reparameterized
sampling is then the identity on the base noise, and its log-density at a
point `(u, v)` is the standard-normal one, `-log(2π) - (u² + v²)/2`. -/
theorem C9 :
    q0.dim = 2
    ∧ q0.loc = [0, 0]
    ∧ q0.scale = [1, 1]
    ∧ (∀ u v : ℚ, q0.sample [u, v] = [u, v])
    ∧ (∀ u v : ℚ, q0.logProb [u, v]
        = -Real.log (2 * Real.pi) - ((u : ℝ) ^ 2 / 2 + (v : ℝ) ^ 2 / 2)) := by
  refine ⟨rfl, rfl, rfl, ?_, ?_⟩
  · intro u v
    simp [ConstDiagGaussian.sample, q0, np_zeros, np_ones, List.replicate]
  · intro u v
    simp [ConstDiagGaussian.logProb, ConstDiagGaussian.dim, q0, np_zeros, np_ones,
      List.replicate]

/-- C10: every in-loop checkpoint first reseeds the CUDA generator with the
fixed seed 0 and then draws its 512 samples, so the generator state at the
start of any checkpoint draw is `cudaSeedState 0` — identical across all
checkpoints of a run, whatever the prior state. -/
theorem C10 : ∀ (mlq mlp : ℕ → ℚ) (it : ℕ) (s : TrainState),
    (it + 1) % show_iter = 0 →
    (iterEvents it).drop 5
        = [Event.seedCuda 0, Event.forward 512, Event.showPlot, Event.appendHist]
    ∧ (∃ d : Draw, (stepIter mlq mlp it s).1.z = some d
        ∧ d.rngAtDraw = cudaSeedState 0 ∧ d.numSamples = 512)
    ∧ ∀ (mlq' mlp' : ℕ → ℚ) (it' : ℕ) (s' : TrainState),
        (it' + 1) % show_iter = 0 →
        Option.map Draw.rngAtDraw ((stepIter mlq mlp it s).1.z)
          = Option.map Draw.rngAtDraw ((stepIter mlq' mlp' it' s').1.z) := by
  intro mlq mlp it s h
  refine ⟨?_, ⟨_, stepIter_z_checkpoint mlq mlp it s h, rfl, rfl⟩, ?_⟩
  · unfold iterEvents
    rw [if_pos h]
    decide
  · intro mlq' mlp' it' s' h'
    rw [stepIter_z_checkpoint mlq mlp it s h,
      stepIter_z_checkpoint mlq' mlp' it' s' h']
    rfl

/-- C10 witness: the checkpoint structure at iterations 499 and 999, and the
equality of their draw-start generator states. -/
theorem C10_witness :
    (iterEvents 499).drop 5
        = [Event.seedCuda 0, Event.forward 512, Event.showPlot, Event.appendHist]
    ∧ (∃ d : Draw,
        (stepIter (fun _ => (0 : ℚ)) (fun _ => (0 : ℚ)) 499 initState).1.z = some d
        ∧ d.rngAtDraw = cudaSeedState 0 ∧ d.numSamples = 512)
    ∧ Option.map Draw.rngAtDraw
        ((stepIter (fun _ => (0 : ℚ)) (fun _ => (0 : ℚ)) 499 initState).1.z)
      = Option.map Draw.rngAtDraw
        ((stepIter (fun _ => (0 : ℚ)) (fun _ => (0 : ℚ)) 999 initState).1.z) := by
  have h := C10 (fun _ => (0 : ℚ)) (fun _ => (0 : ℚ)) 499 initState (by decide)
  exact ⟨h.1, h.2.1, h.2.2 (fun _ => (0 : ℚ)) (fun _ => (0 : ℚ)) 999 initState (by decide)⟩

end RealNVP
